import Mathlib

/-!
Shallow embedding of `text_label_node.py` (the `AddTextLabel` node).

Modelling conventions:
* Python floats are modelled as `ℚ`.  Every float appearing in the code is a
  sum of integers and integer halves (`box_w / 2.0`, `alpha * 255` with
  `alpha ∈ {0.5, 1.0}`), all far below 2^52, so double arithmetic on them is
  exact and the `ℚ` model is faithful.
* Python `int(x)` on a float truncates toward zero: `pyInt`.
* Python `//` is floor division; all divisors in the source are the positive
  literal `2`, for which Lean's `/` on `ℤ` (Euclidean division) coincides
  with floor division.
* numpy `.round()` rounds half to even: `npRound`.
* A torch image tensor (H×W×3 of float) is `TensorImage`; an 8-bit RGBA PIL
  image is `PilImage`.  Pixel grids are total functions on `ℤ × ℤ`; the
  width/height fields carry the tensor shape.
* PIL itself is an external library; its documented pixel semantics are
  modelled mathematically: `Image.alpha_composite` / RGBA drawing over an
  opaque destination is the standard "over" operator rounded to nearest
  (`overChannel`), `rounded_rectangle` coverage is the rounded-rectangle
  region with inclusive corners (`roundedRectMask`), and glyph coverage of
  `ImageDraw.text` (which depends on the loaded font file) is an abstract
  boolean mask carried by the `Font` handle.
* Font handles returned by `ImageFont.truetype` / `load_default` are opaque
  values carrying exactly what the source reads off them: `textbbox` (which
  may be unavailable, hence `Option`), `textlength`, `size`, and the glyph
  ink mask.  Filesystem probing is an abstract `probe` function in `Env`.
-/

/-- Python `str.strip()`: drop whitespace from both ends (char-list level,
so that it reduces in the kernel). -/
def pyStrip (l : List Char) : List Char :=
  ((l.dropWhile Char.isWhitespace).reverse.dropWhile Char.isWhitespace).reverse

/-- Python `int(x)` on a float: truncation toward zero. -/
def pyInt (q : ℚ) : ℤ := if 0 ≤ q then ⌊q⌋ else ⌈q⌉

/-- Value of one hex digit, as accepted by Python `int(_, 16)`;
`none` models the `ValueError` raised on a non-hex character. -/
def hexDigit (c : Char) : Option ℕ :=
  if '0' ≤ c ∧ c ≤ '9' then some (c.toNat - '0'.toNat)
  else if 'a' ≤ c ∧ c ≤ 'f' then some (c.toNat - 'a'.toNat + 10)
  else if 'A' ≤ c ∧ c ≤ 'F' then some (c.toNat - 'A'.toNat + 10)
  else none

/-- Python `int(⟨c1,c2⟩, 16)` for a two-character hex string. -/
def hexByte (c1 c2 : Char) : Option ℕ := do
  let h1 ← hexDigit c1
  let h2 ← hexDigit c2
  pure (16 * h1 + h2)

/-- An 8-bit RGBA pixel. -/
structure RGBA where
  r : ℕ
  g : ℕ
  b : ℕ
  a : ℕ
deriving DecidableEq

/-- Source line 18: `max(0, min(255, int(alpha * 255)))`. -/
def alpha_byte (alpha : ℚ) : ℕ := (max 0 (min 255 (pyInt (alpha * 255)))).toNat

/-- Source `_rgba` (lines 10-18).  `none` models the `ValueError` Python
raises from `int(_, 16)` on a malformed 3- or 6-digit string; any other
length falls back to white, as in the source. -/
def rgba (hexstr : String) (alpha : ℚ) : Option RGBA :=
  match (pyStrip hexstr.toList).dropWhile (· = '#') with
  | [c1, c2, c3] => do
    let r ← hexByte c1 c1
    let g ← hexByte c2 c2
    let b ← hexByte c3 c3
    pure ⟨r, g, b, alpha_byte alpha⟩
  | [c1, c2, c3, c4, c5, c6] => do
    let r ← hexByte c1 c2
    let g ← hexByte c3 c4
    let b ← hexByte c5 c6
    pure ⟨r, g, b, alpha_byte alpha⟩
  | _ => some ⟨255, 255, 255, alpha_byte alpha⟩

/-- A float RGB pixel of a torch image tensor. -/
structure QRGB where
  r : ℚ
  g : ℚ
  b : ℚ
deriving DecidableEq

/-- One image of a torch batch tensor: H×W×3 floats. -/
structure TensorImage where
  width : ℕ
  height : ℕ
  px : ℤ → ℤ → QRGB

/-- An 8-bit RGBA PIL image. -/
structure PilImage where
  width : ℕ
  height : ℕ
  px : ℤ → ℤ → RGBA

/-- `t.clamp(0, 1)` on one channel. -/
def clamp01 (q : ℚ) : ℚ := max 0 (min 1 q)

/-- numpy `.round()`: round half to even. -/
def npRound (q : ℚ) : ℤ :=
  if q - ⌊q⌋ < 1/2 then ⌊q⌋
  else if 1/2 < q - ⌊q⌋ then ⌊q⌋ + 1
  else if ⌊q⌋ % 2 = 0 then ⌊q⌋ else ⌊q⌋ + 1

/-- Source line 21, clamping step: `t.clamp(0, 1)` (out-of-place). -/
def clampImage (img : TensorImage) : TensorImage :=
  { img with px := fun i j =>
      ⟨clamp01 (img.px i j).r, clamp01 (img.px i j).g, clamp01 (img.px i j).b⟩ }

/-- One channel of `(arr * 255.0).round().astype(np.uint8)`. -/
def pxToU8 (q : ℚ) : ℕ := (npRound (q * 255)).toNat

/-- Source lines 21-22 continued: scale to 8-bit and, as in
`add_label` line 114, `.convert("RGBA")` (alpha becomes 255). -/
def quantize8 (img : TensorImage) : PilImage :=
  ⟨img.width, img.height, fun i j =>
    ⟨pxToU8 (img.px i j).r, pxToU8 (img.px i j).g, pxToU8 (img.px i j).b, 255⟩⟩

/-- Source `_tensor_to_pil` (lines 20-22) followed by `.convert("RGBA")`
(line 114). -/
def tensor_to_pil (img : TensorImage) : PilImage := quantize8 (clampImage img)

/-- Source `_pil_to_tensor` (lines 24-25), applied after `.convert("RGB")`
(line 140): drop alpha and divide by 255. -/
def pil_to_tensor (im : PilImage) : TensorImage :=
  ⟨im.width, im.height, fun i j =>
    ⟨((im.px i j).r : ℚ) / 255, ((im.px i j).g : ℚ) / 255, ((im.px i j).b : ℚ) / 255⟩⟩

/-- An opaque font handle, carrying exactly what the source reads off a
PIL font: `draw.textbbox` (may be unavailable: `none` models the exception
caught on line 56), `draw.textlength`, `font.size`, and the glyph ink mask
of `draw.text` relative to the draw origin. -/
structure Font where
  bbox? : String → Option (ℤ × ℤ × ℤ × ℤ)
  textlength : String → ℤ
  size : ℤ
  ink : String → ℤ → ℤ → Bool

/-- Source `_text_bbox` (lines 53-58). -/
def text_bbox (font : Font) (text : String) : ℤ × ℤ × ℤ × ℤ :=
  match font.bbox? text with
  | some r => r
  | none => (0, 0, font.textlength text, font.size)

/-- Source `_font_candidates` (lines 27-42).  `platform.system()` and
`os.path.expanduser("~")` are environment inputs (`isLinux`, `home`);
`os.path.join` on Linux is `/`-concatenation. -/
def font_candidates (fam : String) (isLinux : Bool) (home : String) : List String :=
  (if fam = "Arial" then
    ["Arial.ttf", "arial.ttf", "/Library/Fonts/Arial.ttf",
     "C:\\Windows\\Fonts\\arial.ttf",
     "/usr/share/fonts/truetype/msttcorefonts/Arial.ttf"]
  else if fam = "Monospace" then
    ["DejaVuSansMono.ttf",
     "/usr/share/fonts/truetype/dejavu/DejaVuSansMono.ttf",
     "/Library/Fonts/Menlo.ttc",
     "C:\\Windows\\Fonts\\consola.ttf"]
  else [])
  ++ (if isLinux then
        [home ++ "/.fonts/DejaVuSansMono.ttf",
         home ++ "/.local/share/fonts/DejaVuSansMono.ttf"]
      else [])

/-- The loop of `_load_font` (lines 46-51): try `ImageFont.truetype(p, size)`
on each candidate in order (`probe p size = none` models the exception
swallowed by the `try`/`except`), else `ImageFont.load_default()`. -/
def try_fonts (probe : String → ℤ → Option Font) (size : ℤ) (dflt : Font) :
    List String → Font
  | [] => dflt
  | p :: rest =>
    match probe p size with
    | some f => f
    | none => try_fonts probe size dflt rest

/-- The host environment seen by the node: the filesystem font probe,
the built-in default font, and the platform facts `_font_candidates`
reads. -/
structure Env where
  probe : String → ℤ → Option Font
  defaultFont : Font
  isLinux : Bool
  home : String

/-- Source `_load_font` (lines 44-51). -/
def load_font (env : Env) (fam : String) (size : ℤ) : Font :=
  try_fonts env.probe size env.defaultFont (font_candidates fam env.isLinux env.home)

/-- Source `_place_xy` (lines 60-66).  Any placement string other than the
four named corners takes the `else` (center) branch, as in the source.
Python `//` is floor division; `/` on `ℤ` agrees with it for the positive
divisor 2. -/
def place_xy (w h : ℕ) (bw bh : ℤ) (placement : String) (edge : ℤ) : ℤ × ℤ :=
  if placement = "top_left" then (edge, edge)
  else if placement = "top_right" then ((w : ℤ) - bw - edge, edge)
  else if placement = "bottom_left" then (edge, (h : ℤ) - bh - edge)
  else if placement = "bottom_right" then ((w : ℤ) - bw - edge, (h : ℤ) - bh - edge)
  else (((w : ℤ) - bw) / 2, ((h : ℤ) - bh) / 2)

/-- One channel of PIL "over" compositing / RGBA drawing onto an opaque
destination, rounded to nearest: `(s*a + d*(255-a)) / 255`. -/
def overChannel (s a d : ℕ) : ℕ := (s * a + d * (255 - a) + 127) / 255

/-- PIL alpha compositing of `src` over the opaque pixel `dst`
(every destination pixel here has alpha 255). -/
def overPx (src dst : RGBA) : RGBA :=
  ⟨overChannel src.r src.a dst.r, overChannel src.g src.a dst.g,
   overChannel src.b src.a dst.b, 255⟩

/-- Membership in the quarter-disc test for one corner of a rounded
rectangle. -/
def inCorner (cx cy rad i j : ℤ) : Bool :=
  decide ((i - cx) ^ 2 + (j - cy) ^ 2 ≤ rad ^ 2)

/-- Pixel coverage of `ImageDraw.rounded_rectangle([x0,y0,x1,y1], radius)`
(line 129): the inclusive rectangle, minus the four corner squares outside
their quarter-discs. -/
def roundedRectMask (x0 y0 x1 y1 rad i j : ℤ) : Bool :=
  decide (x0 ≤ i) && decide (i ≤ x1) && decide (y0 ≤ j) && decide (j ≤ y1) &&
  (if decide (i < x0 + rad) && decide (j < y0 + rad) then
     inCorner (x0 + rad) (y0 + rad) rad i j
   else if decide (x1 - rad < i) && decide (j < y0 + rad) then
     inCorner (x1 - rad) (y0 + rad) rad i j
   else if decide (i < x0 + rad) && decide (y1 - rad < j) then
     inCorner (x0 + rad) (y1 - rad) rad i j
   else if decide (x1 - rad < i) && decide (y1 - rad < j) then
     inCorner (x1 - rad) (y1 - rad) rad i j
   else true)

/-- The label geometry computed inside the per-image loop of `add_label`. -/
structure Geo where
  x : ℤ
  y : ℤ
  bw : ℤ
  bh : ℤ
  rx : ℤ
  tx : ℤ
  ty : ℤ
deriving DecidableEq

/-- Source `add_label` lines 118-137: measure the text, box size
(line 122), position (line 123), clamped corner radius (line 128), and the
text draw origin (lines 136-137; `cx - tw/2.0 - l` in float, truncated by
`int()`). -/
def label_geometry (w h : ℕ) (font : Font) (text : String) (placement : String)
    (edge pad cr : ℤ) : Geo :=
  let (l, t, r, b) := text_bbox font text
  let tw := r - l
  let th := b - t
  let bw := tw + pad * 2
  let bh := th + pad * 2
  let (x, y) := place_xy w h bw bh placement edge
  let rx := max 0 (min cr (min bw bh / 2))
  let tx := pyInt ((x : ℚ) + (bw : ℚ) / 2 - (tw : ℚ) / 2 - (l : ℚ))
  let ty := pyInt ((y : ℚ) + (bh : ℚ) / 2 - (th : ℚ) / 2 - (t : ℚ))
  ⟨x, y, bw, bh, rx, tx, ty⟩

/-- Source lines 126-132: fill the rounded box with `bc` at its parsed
alpha on a fully transparent overlay and `Image.alpha_composite` it over
the (opaque) base; a pixel outside the box composites `(0,0,0,0)`, i.e. is
unchanged. -/
def drawBox (bc : RGBA) (g : Geo) (im : PilImage) : PilImage :=
  { im with px := fun i j =>
      if roundedRectMask g.x g.y (g.x + g.bw) (g.y + g.bh) g.rx i j then
        overPx bc (im.px i j)
      else im.px i j }

/-- Source line 138: `draw.text((tx, ty), text, font=font, fill=tc)` on the
composited image; glyph coverage is the font's ink mask relative to the
draw origin. -/
def drawText (font : Font) (text : String) (tc : RGBA) (g : Geo) (im : PilImage) :
    PilImage :=
  { im with px := fun i j =>
      if font.ink text (i - g.tx) (j - g.ty) then overPx tc (im.px i j)
      else im.px i j }

/-- The body of the per-image loop of `add_label` (lines 114-140). -/
def renderImage (font : Font) (text : String) (tc bc : RGBA) (placement : String)
    (edge pad cr : ℤ) (img : TensorImage) : TensorImage :=
  let base := tensor_to_pil img
  let g := label_geometry img.width img.height font text placement edge pad cr
  pil_to_tensor (drawText font text tc g (drawBox bc g base))

/-- Source lines 107-110 together with the two `_rgba` calls of lines 131
and 138 (their arguments are loop-invariant, so they are hoisted out of the
per-image loop): text color at alpha 1.0 and box color at alpha 0.5. -/
def label_colors (color_scheme : String) : Option (RGBA × RGBA) :=
  let cols :=
    if color_scheme = "white_on_black" then ("#FFFFFF", "#000000")
    else ("#000000", "#FFFFFF")
  match rgba cols.1 1, rgba cols.2 (1/2) with
  | some tc, some bc => some (tc, bc)
  | _, _ => none

/-- The `image` argument of `add_label`: a torch tensor of dimension 3
(one image) or 4 (a batch). -/
inductive TorchInput where
  | single (img : TensorImage)
  | batch (imgs : List TensorImage)

/-- Source lines 103-104 and 113: `image.unsqueeze(0)` when `image.dim() == 3`,
then iteration over `image.shape[0]`. -/
def batchOf : TorchInput → List TensorImage
  | .single i => [i]
  | .batch l => l

/-- Source `AddTextLabel.add_label` (lines 91-142).  The result is the
stacked output batch; `none` models an uncaught `ValueError` from `_rgba`
(never reached for the color constants of lines 107-110). -/
def add_label (env : Env) (image : TorchInput) (text font_family : String)
    (font_size : ℤ) (placement : String) (edge_offset : ℤ) (color_scheme : String)
    (padding corner_radius : ℤ) : Option (List TensorImage) :=
  let imgs := batchOf image
  let font := load_font env font_family font_size
  match label_colors color_scheme with
  | some (tc, bc) =>
      some (imgs.map
        (renderImage font text tc bc placement edge_offset padding corner_radius))
  | none => none

/-! State-threaded variant for the frame claim.  Each torch operation the
source applies to the caller's tensor is modelled as a pair
(post-state of the receiver, result).  `torch.Tensor.clamp` (line 21) is
the out-of-place variant (the in-place one is `clamp_`), so it returns its
receiver unchanged; `dim()`, `shape[0]` and indexing `image[i]` are reads;
`unsqueeze(0)` (line 104) is out-of-place and only rebinds the local
`image`.  All other tensors (`out`, the stacked result) are freshly
constructed. -/

/-- `t.clamp(0, 1)`: out-of-place; the receiver is returned unchanged next
to the clamped copy. -/
def clampOp (t : TensorImage) : TensorImage × TensorImage := (t, clampImage t)

/-- The per-image loop body, threading the post-state of the batch slice
`image[i]` (only `clamp` is applied to it). -/
def renderImage_tracked (font : Font) (text : String) (tc bc : RGBA)
    (placement : String) (edge pad cr : ℤ) (img : TensorImage) :
    TensorImage × TensorImage :=
  let (img1, clamped) := clampOp img
  let base := quantize8 clamped
  let g := label_geometry img.width img.height font text placement edge pad cr
  (img1, pil_to_tensor (drawText font text tc g (drawBox bc g base)))

/-- The loop of lines 113-140, threading the post-states of all slices. -/
def mapTracked (f : TensorImage → TensorImage × TensorImage) :
    List TensorImage → List TensorImage × List TensorImage
  | [] => ([], [])
  | i :: rest =>
    let (i1, o) := f i
    let (rest1, os) := mapTracked f rest
    (i1 :: rest1, o :: os)

/-- `add_label` threading the post-state of the caller's tensor argument
next to the returned batch. -/
def add_label_tracked (env : Env) (image : TorchInput) (text font_family : String)
    (font_size : ℤ) (placement : String) (edge_offset : ℤ) (color_scheme : String)
    (padding corner_radius : ℤ) : TorchInput × Option (List TensorImage) :=
  let font := load_font env font_family font_size
  match label_colors color_scheme with
  | none => (image, none)
  | some (tc, bc) =>
    match image with
    | .single i =>
      let (i1, o) :=
        renderImage_tracked font text tc bc placement edge_offset padding corner_radius i
      (.single i1, some [o])
    | .batch l =>
      let (l1, os) := mapTracked
        (renderImage_tracked font text tc bc placement edge_offset padding corner_radius) l
      (.batch l1, some os)

/-! Concrete instances used to evaluate the development on closed inputs. -/

/-- A concrete font handle: 2×2 text bounding box, text advance 2, nominal
size 10, and a single ink pixel at the draw origin. -/
def font0 : Font :=
  ⟨fun _ => some (0, 0, 2, 2), fun _ => 2, 10,
   fun _ dx dy => decide (dx = 0) && decide (dy = 0)⟩

/-- A host environment whose filesystem font probe always fails. -/
def env0 : Env := ⟨fun _ _ => none, font0, false, ""⟩

/-- A font probe that succeeds exactly on the path "x". -/
def probe1 : String → ℤ → Option Font :=
  fun p _ => if p = "x" then some font0 else none

/-- A 10×10 solid mid-gray test image (8-bit channel value 100). -/
def img0 : TensorImage :=
  ⟨10, 10, fun _ _ =>
    ⟨((100 : ℕ) : ℚ) / 255, ((100 : ℕ) : ℚ) / 255, ((100 : ℕ) : ℚ) / 255⟩⟩

/-- The text color of the "white_on_black" scheme, as parsed by `_rgba`. -/
def tc0 : RGBA := ⟨255, 255, 255, 255⟩

/-- The box color of the "white_on_black" scheme at 50% alpha, as parsed by
`_rgba`. -/
def bc0 : RGBA := ⟨0, 0, 0, 127⟩

/-! Helper lemmas. -/

theorem floor_int_half (n : ℤ) : ⌊(n : ℚ) / 2⌋ = n / 2 := by
  rw [show (2 : ℚ) = ((2 : ℕ) : ℚ) by norm_num]
  exact Rat.floor_intCast_div_natCast n 2

theorem ceil_int_half (n : ℤ) : ⌈(n : ℚ) / 2⌉ = -((-n) / 2) := by
  rw [show ((n : ℚ) / 2) = -(((-n : ℤ) : ℚ) / 2) by push_cast; ring,
    Int.ceil_neg, floor_int_half]

theorem pyInt_half_bound (n : ℤ) : (2 * pyInt ((n : ℚ) / 2) - n).natAbs ≤ 1 := by
  unfold pyInt
  by_cases h : (0 : ℚ) ≤ (n : ℚ) / 2
  · rw [if_pos h, floor_int_half]
    omega
  · rw [if_neg h, ceil_int_half]
    omega

theorem npRound_intCast (k : ℤ) : npRound (k : ℚ) = k := by
  simp [npRound, Int.floor_intCast]

theorem npRound_nonneg {q : ℚ} (h : 0 ≤ q) : 0 ≤ npRound q := by
  have hf : 0 ≤ ⌊q⌋ := Int.floor_nonneg.mpr h
  unfold npRound
  split_ifs <;> omega

theorem npRound_le {q : ℚ} {m : ℤ} (h : q ≤ (m : ℚ)) : npRound q ≤ m := by
  have hf : ⌊q⌋ ≤ m := by
    have := Int.floor_le_floor h
    rwa [Int.floor_intCast] at this
  have hfl : (⌊q⌋ : ℚ) ≤ q := Int.floor_le q
  unfold npRound
  split_ifs with h1 h2 h3
  · exact hf
  · have h1' : (1 : ℚ) / 2 ≤ q - ⌊q⌋ := le_of_not_lt h1
    have hlt : ((⌊q⌋ : ℤ) : ℚ) < (m : ℚ) := by linarith
    have : ⌊q⌋ < m := by exact_mod_cast hlt
    omega
  · exact hf
  · have h1' : (1 : ℚ) / 2 ≤ q - ⌊q⌋ := le_of_not_lt h1
    have hlt : ((⌊q⌋ : ℤ) : ℚ) < (m : ℚ) := by linarith
    have : ⌊q⌋ < m := by exact_mod_cast hlt
    omega

theorem pxToU8_clamp_le (v : ℚ) : pxToU8 (clamp01 v) ≤ 255 := by
  have h1 : clamp01 v ≤ 1 := by
    unfold clamp01
    simp
  have h2 : clamp01 v * 255 ≤ ((255 : ℤ) : ℚ) := by
    push_cast
    nlinarith
  have := npRound_le h2
  unfold pxToU8
  omega

theorem pxToU8_roundtrip {c : ℕ} (h : c ≤ 255) :
    pxToU8 (clamp01 ((c : ℚ) / 255)) = c := by
  have h0 : (0 : ℚ) ≤ (c : ℚ) / 255 := by positivity
  have h1 : (c : ℚ) / 255 ≤ 1 := by
    rw [div_le_one (by norm_num)]
    exact_mod_cast h
  have hc : clamp01 ((c : ℚ) / 255) = (c : ℚ) / 255 := by
    unfold clamp01
    rw [min_eq_right h1, max_eq_right h0]
  rw [pxToU8, hc, div_mul_cancel₀ _ (by norm_num : (255 : ℚ) ≠ 0),
    show ((c : ℚ)) = (((c : ℤ) : ℚ)) by push_cast; rfl, npRound_intCast]
  simp

theorem overChannel_le {s a d : ℕ} (hs : s ≤ 255) (ha : a ≤ 255) (hd : d ≤ 255) :
    overChannel s a d ≤ 255 := by
  unfold overChannel
  have h1 : s * a ≤ 255 * a := Nat.mul_le_mul_right a hs
  have h2 : d * (255 - a) ≤ 255 * (255 - a) := Nat.mul_le_mul_right _ hd
  have h3 : 255 * a + 255 * (255 - a) = 255 * 255 := by
    have : a + (255 - a) = 255 := by omega
    calc 255 * a + 255 * (255 - a) = 255 * (a + (255 - a)) := by ring
    _ = 255 * 255 := by rw [this]
  omega

theorem overChannel_opaque (s d : ℕ) : overChannel s 255 d = s := by
  unfold overChannel
  omega

theorem overChannel_half_mid {s d : ℕ} (hs : s ≤ 255) (hd : d ≤ 255) :
    (2 * (overChannel s 127 d : ℤ) - ((s : ℤ) + d)).natAbs ≤ 2 := by
  unfold overChannel
  omega

theorem overPx_opaque (src dst : RGBA) (h : src.a = 255) :
    overPx src dst = ⟨src.r, src.g, src.b, 255⟩ := by
  unfold overPx
  rw [h, overChannel_opaque, overChannel_opaque, overChannel_opaque]

theorem alpha_byte_one : alpha_byte 1 = 255 := by
  norm_num [alpha_byte, pyInt]
  rfl

theorem alpha_byte_half : alpha_byte (1/2) = 127 := by
  norm_num [alpha_byte, pyInt]
  rfl

theorem rgba_white_one : rgba "#FFFFFF" 1 = some ⟨255, 255, 255, 255⟩ := by
  have h : rgba "#FFFFFF" 1 = some ⟨255, 255, 255, alpha_byte 1⟩ := rfl
  rw [h, alpha_byte_one]

theorem rgba_black_one : rgba "#000000" 1 = some ⟨0, 0, 0, 255⟩ := by
  have h : rgba "#000000" 1 = some ⟨0, 0, 0, alpha_byte 1⟩ := rfl
  rw [h, alpha_byte_one]

theorem rgba_white_half : rgba "#FFFFFF" (1/2) = some ⟨255, 255, 255, 127⟩ := by
  have h : rgba "#FFFFFF" (1/2) = some ⟨255, 255, 255, alpha_byte (1/2)⟩ := rfl
  rw [h, alpha_byte_half]

theorem rgba_black_half : rgba "#000000" (1/2) = some ⟨0, 0, 0, 127⟩ := by
  have h : rgba "#000000" (1/2) = some ⟨0, 0, 0, alpha_byte (1/2)⟩ := rfl
  rw [h, alpha_byte_half]

theorem label_colors_wob :
    label_colors "white_on_black" = some (⟨255, 255, 255, 255⟩, ⟨0, 0, 0, 127⟩) := by
  have h : label_colors "white_on_black"
      = some (⟨255, 255, 255, alpha_byte 1⟩, ⟨0, 0, 0, alpha_byte (1/2)⟩) := rfl
  rw [h, alpha_byte_one, alpha_byte_half]

theorem rgba_white_half2 : rgba "#FFFFFF" 2⁻¹ = some ⟨255, 255, 255, 127⟩ := by
  rw [show ((2⁻¹ : ℚ)) = 1/2 by norm_num]
  exact rgba_white_half

theorem label_colors_bow (cs : String) (h : cs ≠ "white_on_black") :
    label_colors cs = some (⟨0, 0, 0, 255⟩, ⟨255, 255, 255, 127⟩) := by
  simp [label_colors, h, rgba_black_one, rgba_white_half, rgba_white_half2]

theorem label_colors_isSome (cs : String) :
    ∃ tc bc : RGBA, label_colors cs = some (tc, bc) := by
  by_cases h : cs = "white_on_black"
  · exact ⟨_, _, h ▸ label_colors_wob⟩
  · exact ⟨_, _, label_colors_bow cs h⟩

theorem label_colors_bound {cs : String} {tc bc : RGBA}
    (h : label_colors cs = some (tc, bc)) :
    tc.r ≤ 255 ∧ tc.g ≤ 255 ∧ tc.b ≤ 255 ∧ tc.a = 255
      ∧ bc.r ≤ 255 ∧ bc.g ≤ 255 ∧ bc.b ≤ 255 ∧ bc.a = 127 := by
  by_cases hcs : cs = "white_on_black"
  · rw [hcs, label_colors_wob] at h
    simp only [Option.some.injEq, Prod.mk.injEq] at h
    obtain ⟨h1, h2⟩ := h
    rw [← h1, ← h2]
    decide
  · rw [label_colors_bow cs hcs] at h
    simp only [Option.some.injEq, Prod.mk.injEq] at h
    obtain ⟨h1, h2⟩ := h
    rw [← h1, ← h2]
    decide

theorem try_fonts_all_none (probe : String → ℤ → Option Font) (size : ℤ)
    (dflt : Font) (cands : List String) (h : ∀ p ∈ cands, probe p size = none) :
    try_fonts probe size dflt cands = dflt := by
  induction cands with
  | nil => rfl
  | cons p rest ih =>
    have hp := h p (List.mem_cons_self p rest)
    simp only [try_fonts, hp]
    exact ih fun q hq => h q (List.mem_cons_of_mem p hq)

theorem try_fonts_first (probe : String → ℤ → Option Font) (size : ℤ)
    (dflt fnt : Font) (l1 l2 : List String) (p : String)
    (hfail : ∀ q ∈ l1, probe q size = none) (hp : probe p size = some fnt) :
    try_fonts probe size dflt (l1 ++ p :: l2) = fnt := by
  induction l1 with
  | nil =>
    simp only [List.nil_append, try_fonts, hp]
  | cons q rest ih =>
    have hq := hfail q (List.mem_cons_self q rest)
    simp only [List.cons_append, try_fonts, hq]
    exact ih fun s hs => hfail s (List.mem_cons_of_mem q hs)

theorem renderImage_tracked_eq (font : Font) (text : String) (tc bc : RGBA)
    (placement : String) (edge pad cr : ℤ) (img : TensorImage) :
    renderImage_tracked font text tc bc placement edge pad cr img
      = (img, renderImage font text tc bc placement edge pad cr img) := rfl

theorem mapTracked_renderImage (font : Font) (text : String) (tc bc : RGBA)
    (placement : String) (edge pad cr : ℤ) (l : List TensorImage) :
    mapTracked (renderImage_tracked font text tc bc placement edge pad cr) l
      = (l, l.map (renderImage font text tc bc placement edge pad cr)) := by
  induction l with
  | nil => rfl
  | cons i rest ih =>
    simp only [mapTracked, renderImage_tracked_eq, ih, List.map_cons]

theorem add_label_eq (env : Env) (image : TorchInput) (text font_family : String)
    (font_size : ℤ) (placement : String) (edge_offset : ℤ) (color_scheme : String)
    (padding corner_radius : ℤ) {tc bc : RGBA}
    (hcols : label_colors color_scheme = some (tc, bc)) :
    add_label env image text font_family font_size placement edge_offset
        color_scheme padding corner_radius
      = some ((batchOf image).map
          (renderImage (load_font env font_family font_size) text tc bc placement
            edge_offset padding corner_radius)) := by
  unfold add_label
  rw [hcols]

theorem renderImage_width (font : Font) (text : String) (tc bc : RGBA)
    (placement : String) (edge pad cr : ℤ) (img : TensorImage) :
    (renderImage font text tc bc placement edge pad cr img).width = img.width := rfl

theorem renderImage_height (font : Font) (text : String) (tc bc : RGBA)
    (placement : String) (edge pad cr : ℤ) (img : TensorImage) :
    (renderImage font text tc bc placement edge pad cr img).height = img.height := rfl

/-- C1: for every input batch of N images, `add_label` succeeds and returns a
batch of exactly N images — the per-image transform applied to the
inputs in input order — and each output image has the same pixel width and
height as the corresponding input image. -/
theorem C1_batch_count_order_dims (env : Env) (imgs : List TensorImage)
    (text font_family : String) (font_size : ℤ) (placement : String)
    (edge_offset : ℤ) (color_scheme : String) (padding corner_radius : ℤ) :
    ∃ (tc bc : RGBA) (out : List TensorImage),
      label_colors color_scheme = some (tc, bc)
      ∧ add_label env (.batch imgs) text font_family font_size placement
          edge_offset color_scheme padding corner_radius = some out
      ∧ out = imgs.map (renderImage (load_font env font_family font_size) text tc bc
          placement edge_offset padding corner_radius)
      ∧ out.length = imgs.length
      ∧ out.map (fun o => (o.width, o.height))
          = imgs.map (fun i => (i.width, i.height)) := by
  obtain ⟨tc, bc, hcols⟩ := label_colors_isSome color_scheme
  refine ⟨tc, bc, _, hcols,
    add_label_eq env (.batch imgs) text font_family font_size placement
      edge_offset color_scheme padding corner_radius hcols, rfl, ?_, ?_⟩
  · simp [batchOf]
  · show (List.map _ imgs).map _ = _
    simp only [List.map_map]
    rfl

/-- C3: the box drawn on each image has width equal to the measured text
width plus twice the padding, and height equal to the measured text height
plus twice the padding. -/
theorem C3_box_dims (w h : ℕ) (font : Font) (text placement : String)
    (edge pad cr : ℤ) :
    (label_geometry w h font text placement edge pad cr).bw
        = ((text_bbox font text).2.2.1 - (text_bbox font text).1) + 2 * pad
    ∧ (label_geometry w h font text placement edge pad cr).bh
        = ((text_bbox font text).2.2.2 - (text_bbox font text).2.1) + 2 * pad := by
  rcases hbb : text_bbox font text with ⟨l, t, r, b⟩
  rcases hxy : place_xy w h (r - l + pad * 2) (b - t + pad * 2) placement edge
    with ⟨x, y⟩
  simp only [label_geometry, hbb, hxy]
  constructor <;> ring

/-- C4: for every requested corner radius (including radii larger than the
box), the radius actually used for the rounded rectangle is never negative
and never exceeds half the smaller box dimension. -/
theorem C4_radius_clamp (w h : ℕ) (font : Font) (text placement : String)
    (edge pad cr : ℤ) (hpad : 0 ≤ pad)
    (hlr : (text_bbox font text).1 ≤ (text_bbox font text).2.2.1)
    (htb : (text_bbox font text).2.1 ≤ (text_bbox font text).2.2.2) :
    0 ≤ (label_geometry w h font text placement edge pad cr).rx
    ∧ 2 * (label_geometry w h font text placement edge pad cr).rx
        ≤ min (label_geometry w h font text placement edge pad cr).bw
            (label_geometry w h font text placement edge pad cr).bh := by
  rcases hbb : text_bbox font text with ⟨l, t, r, b⟩
  rw [hbb] at hlr htb
  simp only at hlr htb
  rcases hxy : place_xy w h (r - l + pad * 2) (b - t + pad * 2) placement edge
    with ⟨x, y⟩
  simp only [label_geometry, hbb, hxy]
  omega

/-- C5: the box top-left position for each placement is exactly the formula
of `_place_xy`; in particular `top_left` with edge offset 0 puts the corner
at the origin, and `center` puts the box center within half a pixel of the
image center. -/
theorem C5_placement (w h : ℕ) (bw bh edge : ℤ) :
    place_xy w h bw bh "top_left" edge = (edge, edge)
    ∧ place_xy w h bw bh "top_right" edge = ((w : ℤ) - bw - edge, edge)
    ∧ place_xy w h bw bh "bottom_left" edge = (edge, (h : ℤ) - bh - edge)
    ∧ place_xy w h bw bh "bottom_right" edge
        = ((w : ℤ) - bw - edge, (h : ℤ) - bh - edge)
    ∧ place_xy w h bw bh "center" edge = (((w : ℤ) - bw) / 2, ((h : ℤ) - bh) / 2)
    ∧ place_xy w h bw bh "top_left" 0 = (0, 0)
    ∧ (2 * (place_xy w h bw bh "center" edge).1 + bw - (w : ℤ)).natAbs ≤ 1
    ∧ (2 * (place_xy w h bw bh "center" edge).2 + bh - (h : ℤ)).natAbs ≤ 1 := by
  refine ⟨rfl, rfl, rfl, rfl, rfl, rfl, ?_, ?_⟩
  · show (2 * (((w : ℤ) - bw) / 2) + bw - (w : ℤ)).natAbs ≤ 1
    omega
  · show (2 * (((h : ℤ) - bh) / 2) + bh - (h : ℤ)).natAbs ≤ 1
    omega

/-- C7: the text draw origin is the truncation of
(boxCenter − textSize/2 − bboxOffset) in each axis, and consequently the
drawn text's measured bounding box is centered in the label box up to
integer truncation (within half a pixel on each axis, stated doubled). -/
theorem C7_text_centering (w h : ℕ) (font : Font) (text placement : String)
    (edge pad cr : ℤ) :
    (label_geometry w h font text placement edge pad cr).tx
      = pyInt (((label_geometry w h font text placement edge pad cr).x : ℚ)
          + ((label_geometry w h font text placement edge pad cr).bw : ℚ) / 2
          - (((text_bbox font text).2.2.1 - (text_bbox font text).1 : ℤ) : ℚ) / 2
          - ((text_bbox font text).1 : ℚ))
    ∧ (label_geometry w h font text placement edge pad cr).ty
      = pyInt (((label_geometry w h font text placement edge pad cr).y : ℚ)
          + ((label_geometry w h font text placement edge pad cr).bh : ℚ) / 2
          - (((text_bbox font text).2.2.2 - (text_bbox font text).2.1 : ℤ) : ℚ) / 2
          - ((text_bbox font text).2.1 : ℚ))
    ∧ (2 * ((label_geometry w h font text placement edge pad cr).tx
            + (text_bbox font text).1)
        + ((text_bbox font text).2.2.1 - (text_bbox font text).1)
        - (2 * (label_geometry w h font text placement edge pad cr).x
            + (label_geometry w h font text placement edge pad cr).bw)).natAbs ≤ 1
    ∧ (2 * ((label_geometry w h font text placement edge pad cr).ty
            + (text_bbox font text).2.1)
        + ((text_bbox font text).2.2.2 - (text_bbox font text).2.1)
        - (2 * (label_geometry w h font text placement edge pad cr).y
            + (label_geometry w h font text placement edge pad cr).bh)).natAbs ≤ 1 := by
  rcases hbb : text_bbox font text with ⟨l, t, r, b⟩
  rcases hxy : place_xy w h (r - l + pad * 2) (b - t + pad * 2) placement edge
    with ⟨x, y⟩
  simp only [label_geometry, hbb, hxy]
  have harg1 : ((x : ℚ) + ((r - l + pad * 2 : ℤ) : ℚ) / 2 - ((r - l : ℤ) : ℚ) / 2
      - (l : ℚ)) = (((2 * x + (r - l + pad * 2) - (r - l) - 2 * l : ℤ) : ℚ)) / 2 := by
    push_cast
    ring
  have harg2 : ((y : ℚ) + ((b - t + pad * 2 : ℤ) : ℚ) / 2 - ((b - t : ℤ) : ℚ) / 2
      - (t : ℚ)) = (((2 * y + (b - t + pad * 2) - (b - t) - 2 * t : ℤ) : ℚ)) / 2 := by
    push_cast
    ring
  refine ⟨trivial, trivial, ?_, ?_⟩
  · rw [harg1]
    have := pyInt_half_bound (2 * x + (r - l + pad * 2) - (r - l) - 2 * l)
    omega
  · rw [harg2]
    have := pyInt_half_bound (2 * y + (b - t + pad * 2) - (b - t) - 2 * t)
    omega

/-- C9: a single 3-dimensional image tensor is treated as a batch of one:
`add_label` on it agrees with `add_label` on the singleton batch, succeeds,
and returns a (4-dimensional) batch holding exactly one labeled image. -/
theorem C9_single_input (env : Env) (img : TensorImage) (text font_family : String)
    (font_size : ℤ) (placement : String) (edge_offset : ℤ) (color_scheme : String)
    (padding corner_radius : ℤ) :
    add_label env (.single img) text font_family font_size placement edge_offset
        color_scheme padding corner_radius
      = add_label env (.batch [img]) text font_family font_size placement
          edge_offset color_scheme padding corner_radius
    ∧ ∃ out : List TensorImage,
        add_label env (.single img) text font_family font_size placement
            edge_offset color_scheme padding corner_radius = some out
        ∧ out.length = 1 := by
  obtain ⟨tc, bc, hcols⟩ := label_colors_isSome color_scheme
  rw [add_label_eq env (.single img) text font_family font_size placement
      edge_offset color_scheme padding corner_radius hcols,
    add_label_eq env (.batch [img]) text font_family font_size placement
      edge_offset color_scheme padding corner_radius hcols]
  exact ⟨rfl, _, rfl, rfl⟩

/-- C8: `add_label` is pure with respect to its tensor argument: threading
the post-state of the caller's tensor through every torch operation the
source applies to it (all reads or out-of-place operations) returns the
tensor unchanged, while producing exactly the batch `add_label` returns
(built from freshly constructed tensors). -/
theorem C8_pure_frame (env : Env) (image : TorchInput) (text font_family : String)
    (font_size : ℤ) (placement : String) (edge_offset : ℤ) (color_scheme : String)
    (padding corner_radius : ℤ) :
    (add_label_tracked env image text font_family font_size placement edge_offset
        color_scheme padding corner_radius).1 = image
    ∧ (add_label_tracked env image text font_family font_size placement edge_offset
        color_scheme padding corner_radius).2
      = add_label env image text font_family font_size placement edge_offset
          color_scheme padding corner_radius := by
  obtain ⟨tc, bc, hcols⟩ := label_colors_isSome color_scheme
  rw [add_label_eq env image text font_family font_size placement
    edge_offset color_scheme padding corner_radius hcols]
  unfold add_label_tracked
  rw [hcols]
  cases image with
  | single i =>
    simp only [renderImage_tracked_eq, batchOf, List.map]
    exact ⟨trivial, trivial⟩
  | batch l =>
    simp only [mapTracked_renderImage, batchOf]
    exact ⟨trivial, trivial⟩

/-- C6: font loading never fails: candidates are probed in order and the
first success wins; if every candidate fails the built-in default font is
used, and `add_label` still succeeds, rendering with that default font. -/
theorem C6_font_fallback (env : Env) (fam : String) (fsize : ℤ)
    (probe2 : String → ℤ → Option Font) (size2 : ℤ) (dflt2 fnt : Font)
    (l1 l2 : List String) (p : String) (image : TorchInput)
    (text placement color_scheme : String)
    (edge_offset padding corner_radius : ℤ) (tc bc : RGBA)
    (hall : ∀ q ∈ font_candidates fam env.isLinux env.home, env.probe q fsize = none)
    (hfail : ∀ q ∈ l1, probe2 q size2 = none)
    (hp : probe2 p size2 = some fnt)
    (hcols : label_colors color_scheme = some (tc, bc)) :
    load_font env fam fsize = env.defaultFont
    ∧ try_fonts probe2 size2 dflt2 (l1 ++ p :: l2) = fnt
    ∧ add_label env image text fam fsize placement edge_offset color_scheme
          padding corner_radius
        = some ((batchOf image).map (renderImage env.defaultFont text tc bc
            placement edge_offset padding corner_radius)) := by
  have h1 : load_font env fam fsize = env.defaultFont :=
    try_fonts_all_none env.probe fsize env.defaultFont _ hall
  refine ⟨h1, try_fonts_first probe2 size2 dflt2 fnt l1 l2 p hfail hp, ?_⟩
  rw [add_label_eq env image text fam fsize placement edge_offset color_scheme
    padding corner_radius hcols, h1]

theorem tensor_to_pil_px_le (img : TensorImage) (i j : ℤ) :
    ((tensor_to_pil img).px i j).r ≤ 255 ∧ ((tensor_to_pil img).px i j).g ≤ 255
      ∧ ((tensor_to_pil img).px i j).b ≤ 255 :=
  ⟨pxToU8_clamp_le _, pxToU8_clamp_le _, pxToU8_clamp_le _⟩

theorem drawn_px_le (font : Font) (text : String) (tc bc : RGBA) (g : Geo)
    (bse : PilImage)
    (htc : tc.r ≤ 255 ∧ tc.g ≤ 255 ∧ tc.b ≤ 255 ∧ tc.a ≤ 255)
    (hbc : bc.r ≤ 255 ∧ bc.g ≤ 255 ∧ bc.b ≤ 255 ∧ bc.a ≤ 255)
    (hbse : ∀ i' j' : ℤ, (bse.px i' j').r ≤ 255 ∧ (bse.px i' j').g ≤ 255
      ∧ (bse.px i' j').b ≤ 255) (i j : ℤ) :
    ((drawText font text tc g (drawBox bc g bse)).px i j).r ≤ 255
    ∧ ((drawText font text tc g (drawBox bc g bse)).px i j).g ≤ 255
    ∧ ((drawText font text tc g (drawBox bc g bse)).px i j).b ≤ 255 := by
  obtain ⟨htr, htg, htb, hta⟩ := htc
  obtain ⟨hbr, hbg, hbb, hba⟩ := hbc
  obtain ⟨h1, h2, h3⟩ := hbse i j
  simp only [drawText, drawBox]
  split_ifs <;>
    (try simp only [overPx]) <;>
    refine ⟨?_, ?_, ?_⟩ <;>
    first
      | assumption
      | exact overChannel_le htr hta (overChannel_le hbr hba h1)
      | exact overChannel_le htg hta (overChannel_le hbg hba h2)
      | exact overChannel_le htb hta (overChannel_le hbb hba h3)
      | exact overChannel_le htr hta h1
      | exact overChannel_le htg hta h2
      | exact overChannel_le htb hta h3
      | exact overChannel_le hbr hba h1
      | exact overChannel_le hbg hba h2
      | exact overChannel_le hbb hba h3

theorem renderImage_px_bounds (font : Font) (text placement : String)
    (tc bc : RGBA)
    (htc : tc.r ≤ 255 ∧ tc.g ≤ 255 ∧ tc.b ≤ 255 ∧ tc.a ≤ 255)
    (hbc : bc.r ≤ 255 ∧ bc.g ≤ 255 ∧ bc.b ≤ 255 ∧ bc.a ≤ 255)
    (edge pad cr : ℤ) (img : TensorImage) (i j : ℤ) :
    ∃ n1 n2 n3 : ℕ, n1 ≤ 255 ∧ n2 ≤ 255 ∧ n3 ≤ 255
      ∧ (renderImage font text tc bc placement edge pad cr img).px i j
          = ⟨(n1 : ℚ) / 255, (n2 : ℚ) / 255, (n3 : ℚ) / 255⟩ := by
  obtain ⟨h1, h2, h3⟩ := drawn_px_le font text tc bc
    (label_geometry img.width img.height font text placement edge pad cr)
    (tensor_to_pil img) htc hbc (fun i' j' => tensor_to_pil_px_le img i' j') i j
  exact ⟨_, _, _, h1, h2, h3, rfl⟩

/-- C10: every pixel channel of every image of the output batch lies in
[0,1]: inputs are clamped to [0,1] before 8-bit conversion, and outputs are
8-bit values divided by 255. -/
theorem C10_output_range (env : Env) (image : TorchInput) (text font_family : String)
    (font_size : ℤ) (placement : String) (edge_offset : ℤ) (color_scheme : String)
    (padding corner_radius : ℤ) (out : List TensorImage)
    (hout : add_label env image text font_family font_size placement edge_offset
        color_scheme padding corner_radius = some out) :
    ∀ o ∈ out, ∀ i j : ℤ,
      (0 ≤ (o.px i j).r ∧ (o.px i j).r ≤ 1)
      ∧ (0 ≤ (o.px i j).g ∧ (o.px i j).g ≤ 1)
      ∧ (0 ≤ (o.px i j).b ∧ (o.px i j).b ≤ 1) := by
  obtain ⟨tc, bc, hcols⟩ := label_colors_isSome color_scheme
  rw [add_label_eq env image text font_family font_size placement edge_offset
    color_scheme padding corner_radius hcols] at hout
  obtain ⟨hc1, hc2, hc3, hc4, hc5, hc6, hc7, hc8⟩ := label_colors_bound hcols
  injection hout with hout
  subst hout
  intro o ho i j
  obtain ⟨img, _, rfl⟩ := List.mem_map.mp ho
  obtain ⟨n1, n2, n3, h1, h2, h3, hpx⟩ :=
    renderImage_px_bounds (load_font env font_family font_size) text placement tc bc
      ⟨hc1, hc2, hc3, le_of_eq hc4⟩ ⟨hc5, hc6, hc7, by omega⟩
      edge_offset padding corner_radius img i j
  rw [hpx]
  have k1 : ((n1 : ℚ) / 255) ≤ 1 := by
    rw [div_le_one (by norm_num)]
    exact_mod_cast h1
  have k2 : ((n2 : ℚ) / 255) ≤ 1 := by
    rw [div_le_one (by norm_num)]
    exact_mod_cast h2
  have k3 : ((n3 : ℚ) / 255) ≤ 1 := by
    rw [div_le_one (by norm_num)]
    exact_mod_cast h3
  exact ⟨⟨by positivity, k1⟩, ⟨by positivity, k2⟩, ⟨by positivity, k3⟩⟩

/-- C2: rendering over a solid base of 8-bit color (cr,cg,cb), a pixel
covered by the box but not by text ink gets the 50%-alpha composite of the
box background color over the base — each 8-bit channel within one of the
exact midpoint of box color and base color (stated doubled) — because the
box is filled at the parsed 50% alpha on a transparent overlay composited
over the base; and a pixel covered by text ink, drawn afterwards at full
alpha, is exactly the text color. -/
theorem C2_box_blend_text_exact (font : Font) (text color_scheme placement : String)
    (tc bc : RGBA) (edge pad crad : ℤ) (cr cg cb : ℕ) (img : TensorImage)
    (g : Geo) (i j i2 j2 : ℤ)
    (hcols : label_colors color_scheme = some (tc, bc))
    (hg : g = label_geometry img.width img.height font text placement edge pad crad)
    (hsolid : ∀ i' j' : ℤ,
      img.px i' j' = ⟨(cr : ℚ) / 255, (cg : ℚ) / 255, (cb : ℚ) / 255⟩)
    (hcr : cr ≤ 255) (hcg : cg ≤ 255) (hcb : cb ≤ 255)
    (hbox : roundedRectMask g.x g.y (g.x + g.bw) (g.y + g.bh) g.rx i j = true)
    (hnoink : font.ink text (i - g.tx) (j - g.ty) = false)
    (hink : font.ink text (i2 - g.tx) (j2 - g.ty) = true) :
    (renderImage font text tc bc placement edge pad crad img).px i j
        = ⟨(overChannel bc.r 127 cr : ℚ) / 255, (overChannel bc.g 127 cg : ℚ) / 255,
           (overChannel bc.b 127 cb : ℚ) / 255⟩
    ∧ (2 * (overChannel bc.r 127 cr : ℤ) - ((bc.r : ℤ) + (cr : ℤ))).natAbs ≤ 2
    ∧ (2 * (overChannel bc.g 127 cg : ℤ) - ((bc.g : ℤ) + (cg : ℤ))).natAbs ≤ 2
    ∧ (2 * (overChannel bc.b 127 cb : ℤ) - ((bc.b : ℤ) + (cb : ℤ))).natAbs ≤ 2
    ∧ (renderImage font text tc bc placement edge pad crad img).px i2 j2
        = ⟨(tc.r : ℚ) / 255, (tc.g : ℚ) / 255, (tc.b : ℚ) / 255⟩ := by
  obtain ⟨htr, htg, htb, hta, hbr, hbg, hbb, hba⟩ := label_colors_bound hcols
  subst hg
  have hbase : ∀ i' j' : ℤ, (tensor_to_pil img).px i' j' = ⟨cr, cg, cb, 255⟩ := by
    intro i' j'
    simp only [tensor_to_pil, quantize8, clampImage, hsolid]
    rw [pxToU8_roundtrip hcr, pxToU8_roundtrip hcg, pxToU8_roundtrip hcb]
  refine ⟨?_, overChannel_half_mid hbr hcr, overChannel_half_mid hbg hcg,
    overChannel_half_mid hbb hcb, ?_⟩
  · simp only [renderImage, pil_to_tensor, drawText, drawBox, hnoink, hbox,
      Bool.false_eq_true, if_false, if_true, hbase, overPx, hba]
  · simp only [renderImage, pil_to_tensor, drawText, drawBox, hink, if_true,
      overPx, hta, overChannel_opaque]

theorem g0_eval : label_geometry 10 10 font0 "HI" "top_left" 0 1 0
    = ⟨0, 0, 4, 4, 0, 1, 1⟩ := by
  norm_num [label_geometry, text_bbox, font0, place_xy, pyInt]

theorem C4_radius_clamp_witness :
    0 ≤ (label_geometry 10 10 font0 "HI" "top_left" 0 1 99).rx
    ∧ 2 * (label_geometry 10 10 font0 "HI" "top_left" 0 1 99).rx
        ≤ min (label_geometry 10 10 font0 "HI" "top_left" 0 1 99).bw
            (label_geometry 10 10 font0 "HI" "top_left" 0 1 99).bh :=
  C4_radius_clamp 10 10 font0 "HI" "top_left" 0 1 99 (by norm_num)
    (by decide) (by decide)

theorem C6_font_fallback_witness :
    load_font env0 "Arial" 30 = env0.defaultFont
    ∧ try_fonts probe1 30 font0 (["a"] ++ "x" :: []) = font0
    ∧ add_label env0 (.batch [img0]) "HI" "Arial" 30 "top_left" 0 "white_on_black" 1 0
        = some ((batchOf (.batch [img0])).map (renderImage env0.defaultFont "HI"
            tc0 bc0 "top_left" 0 1 0)) :=
  C6_font_fallback env0 "Arial" 30 probe1 30 font0 font0 ["a"] [] "x"
    (.batch [img0]) "HI" "top_left" "white_on_black" 0 1 0 tc0 bc0
    (fun _ _ => rfl)
    (by
      intro q hq
      rw [List.mem_singleton] at hq
      subst hq
      rfl)
    rfl
    (by rw [label_colors_wob]; rfl)

theorem C2_box_blend_text_exact_witness :
    (renderImage font0 "HI" tc0 bc0 "top_left" 0 1 0 img0).px 2 1
        = ⟨(overChannel bc0.r 127 100 : ℚ) / 255, (overChannel bc0.g 127 100 : ℚ) / 255,
           (overChannel bc0.b 127 100 : ℚ) / 255⟩
    ∧ (2 * (overChannel bc0.r 127 100 : ℤ) - ((bc0.r : ℤ) + ((100 : ℕ) : ℤ))).natAbs ≤ 2
    ∧ (2 * (overChannel bc0.g 127 100 : ℤ) - ((bc0.g : ℤ) + ((100 : ℕ) : ℤ))).natAbs ≤ 2
    ∧ (2 * (overChannel bc0.b 127 100 : ℤ) - ((bc0.b : ℤ) + ((100 : ℕ) : ℤ))).natAbs ≤ 2
    ∧ (renderImage font0 "HI" tc0 bc0 "top_left" 0 1 0 img0).px 1 1
        = ⟨(tc0.r : ℚ) / 255, (tc0.g : ℚ) / 255, (tc0.b : ℚ) / 255⟩ :=
  C2_box_blend_text_exact font0 "HI" "white_on_black" "top_left" tc0 bc0 0 1 0
    100 100 100 img0 ⟨0, 0, 4, 4, 0, 1, 1⟩ 2 1 1 1
    (by rw [label_colors_wob]; rfl)
    g0_eval.symm
    (fun _ _ => rfl)
    (by norm_num) (by norm_num) (by norm_num)
    (by decide) (by decide) (by decide)

theorem C10_output_range_witness :
    (0 ≤ ((renderImage (load_font env0 "Arial" 30) "HI" tc0 bc0 "top_left" 0 1 0
        img0).px 0 0).r
      ∧ ((renderImage (load_font env0 "Arial" 30) "HI" tc0 bc0 "top_left" 0 1 0
        img0).px 0 0).r ≤ 1)
    ∧ (0 ≤ ((renderImage (load_font env0 "Arial" 30) "HI" tc0 bc0 "top_left" 0 1 0
        img0).px 0 0).g
      ∧ ((renderImage (load_font env0 "Arial" 30) "HI" tc0 bc0 "top_left" 0 1 0
        img0).px 0 0).g ≤ 1)
    ∧ (0 ≤ ((renderImage (load_font env0 "Arial" 30) "HI" tc0 bc0 "top_left" 0 1 0
        img0).px 0 0).b
      ∧ ((renderImage (load_font env0 "Arial" 30) "HI" tc0 bc0 "top_left" 0 1 0
        img0).px 0 0).b ≤ 1) :=
  C10_output_range env0 (.batch [img0]) "HI" "Arial" 30 "top_left" 0
    "white_on_black" 1 0
    [renderImage (load_font env0 "Arial" 30) "HI" tc0 bc0 "top_left" 0 1 0 img0]
    (by
      rw [add_label_eq env0 (.batch [img0]) "HI" "Arial" 30 "top_left" 0
        "white_on_black" 1 0
        (show label_colors "white_on_black" = some (tc0, bc0) by
          rw [label_colors_wob]; rfl)]
      rfl)
    (renderImage (load_font env0 "Arial" 30) "HI" tc0 bc0 "top_left" 0 1 0 img0)
    (List.mem_singleton.mpr rfl) 0 0
